import Mathlib

/-!
Shallow embedding of the `es_resolve` crate (src/es_resolver.rs, src/utils.rs,
src/types.rs) and proofs about the claims of its specification.

Conventions of the embedding:
* Rust `&str`/`String` values are Lean `String`s.  All character searching and
  slicing is done on `String.data` (a `List Char`), so indices count characters;
  this coincides with Rust's byte indices on ASCII inputs, which is the only
  kind of input exercised here.  Every helper is structurally recursive so that
  closed terms evaluate by `rfl`/`decide`.
* Rust `PathBuf` values are Lean `String`s with Unix separators, together with
  lexical operations (`joinPath`, `parentPath`, `withExtension`, `withFileName`,
  `cleanPath`) mirroring `std::path` / the `path_clean` crate.
* The filesystem and the JSON parser are the external collaborators of the
  algorithm (spec section 1); they are modelled as an `Env` of oracles.
* A Rust panic (out-of-bounds slice, `unwrap` on `None`) is modelled by `none`
  in an outer `Option` layer; the same layer absorbs fuel exhaustion of the
  walks that the source runs as unbounded loops/recursion.
-/

namespace EsResolve

/-- First index of character `c` in a character list, starting at offset `i`
(Rust `str::find`). -/
def findCharAux (c : Char) : List Char → Nat → Option Nat
  | [], _ => none
  | x :: xs, i => if x = c then some i else findCharAux c xs (i + 1)

/-- Rust `s.find(c)`: index of the first occurrence of `c` in `s`. -/
def findChar (s : String) (c : Char) : Option Nat :=
  findCharAux c s.data 0

/-- Take the first `n` characters of a string. -/
def strTake (s : String) (n : Nat) : String :=
  String.mk (s.data.take n)

/-- Drop the first `n` characters of a string (Rust `&s[n..]`). -/
def strDrop (s : String) (n : Nat) : String :=
  String.mk (s.data.drop n)

/-- Rust `s.contains(c)`. -/
def strContains (s : String) (c : Char) : Bool :=
  s.data.contains c

/-- Rust `s.starts_with(p)`. -/
def strStartsWith (s p : String) : Bool :=
  p.data.isPrefixOf s.data

/-- Rust `s.ends_with(p)`. -/
def strEndsWith (s p : String) : Bool :=
  p.data.isSuffixOf s.data

/-- Byte-wise (here: character-wise) lexicographic comparison, as Rust `Ord`
for `str`; the two agree on ASCII. -/
def charListLt : List Char → List Char → Bool
  | [], [] => false
  | [], _ :: _ => true
  | _ :: _, [] => false
  | a :: as, b :: bs =>
      if a.toNat < b.toNat then true
      else if b.toNat < a.toNat then false
      else charListLt as bs

/-- Rust `str` ordering. -/
def strLt (a b : String) : Bool :=
  charListLt a.data b.data

/-- Splitting helper for `splitOnChar`. -/
def splitOnCharAux (c : Char) : List Char → List Char → List String
  | [], acc => [String.mk acc.reverse]
  | x :: xs, acc =>
      if x = c then String.mk acc.reverse :: splitOnCharAux c xs []
      else splitOnCharAux c xs (x :: acc)

/-- Split a string on a separator character. -/
def splitOnChar (c : Char) (s : String) : List String :=
  splitOnCharAux c s.data []

/-- Index of the last `/` of a path string. -/
def lastSlash (p : String) : Option Nat :=
  (findCharAux '/' p.data.reverse 0).map (fun j => p.data.length - 1 - j)

/-- Rust `Path::parent`: strip the final component.  `parent("") = None`,
`parent("/") = None`, `parent("a") = Some("")`, `parent("/a") = Some("/")`. -/
def parentPath (p : String) : Option String :=
  if p.data = [] then none
  else if p = "/" then none
  else match lastSlash p with
    | none => some ""
    | some 0 => some "/"
    | some i => some (strTake p i)

/-- Rust `Path::join` / `PathBuf::push`: an absolute `q` replaces `p`,
otherwise `q` is appended after a separator. -/
def joinPath (p q : String) : String :=
  if strStartsWith q "/" then q
  else if p.data = [] then q
  else if strEndsWith p "/" then p ++ q
  else p ++ "/" ++ q

/-- Rust `Path::with_file_name`: drop the final component, then push `s`. -/
def withFileName (p s : String) : String :=
  match parentPath p with
  | some d => joinPath d s
  | none => joinPath p s

/-- Rust `file_stem` on a file name: everything before the last `.`, except
that a lone leading dot carries no extension (`.foo` is its own stem). -/
def fileStem (file : List Char) : List Char :=
  match (findCharAux '.' file.reverse 0).map (fun j => file.length - 1 - j) with
  | some 0 => file
  | some i => file.take i
  | none => file

/-- Rust `Path::with_extension e` (for non-empty `e`): replace the extension of
the final component, i.e. set the file name to `file_stem ++ "." ++ e`.  It
replaces an existing extension rather than appending to it. -/
def withExtension (p e : String) : String :=
  match lastSlash p with
  | some i =>
      let file := p.data.drop (i + 1)
      if file = [] then p
      else strTake p (i + 1) ++ String.mk (fileStem file) ++ "." ++ e
  | none =>
      if p.data = [] then p
      else String.mk (fileStem p.data) ++ "." ++ e

/-- Intercalate path components with `/`. -/
def joinComponents : List String → String
  | [] => ""
  | [x] => x
  | x :: xs => x ++ "/" ++ joinComponents xs

/-- Lexical path cleaning, as the `path_clean` crate (a port of Go
`path.Clean`): collapse `//`, drop `.`, resolve `..` against previous
components, `clean "" = "."`. -/
def cleanPath (p : String) : String :=
  let rooted := strStartsWith p "/"
  let comps := (splitOnChar '/' p).filter (fun c => c != "" && c != ".")
  let outRev := comps.foldl
    (fun acc c =>
      if c = ".." then
        match acc with
        | [] => if rooted then [] else [c]
        | h :: t => if h = ".." then c :: acc else t
      else c :: acc) ([] : List String)
  let out := outRev.reverse
  if out = [] then (if rooted then "/" else ".")
  else (if rooted then "/" else "") ++ joinComponents out

/-- Components of a path for Rust `Path::ends_with` (component-wise
comparison; empty and `.` components are normalized away). -/
def pathComponents (p : String) : List String :=
  (splitOnChar '/' p).filter (fun c => c != "" && c != ".")

/-- Rust `Path::ends_with`: does the component list of `suffix` end the
component list of `p`? -/
def pathEndsWith (p suffix : String) : Bool :=
  (pathComponents suffix).isSuffixOf (pathComponents p)

/-- Is the path absolute (Unix)? -/
def isAbsolutePath (p : String) : Bool :=
  strStartsWith p "/"

/-- Rust `s.replacen(c, rep, 1)`: replace the first occurrence of `c`. -/
def replacen1 (s : String) (c : Char) (rep : String) : String :=
  match findChar s c with
  | some i => strTake s i ++ rep ++ strDrop s (i + 1)
  | none => s

/-- Embedding of `utils::match_exports_pattern` (src/utils.rs lines 3-10). -/
def match_exports_pattern (pattern target : String) : Bool :=
  match findChar pattern '*' with
  | some i =>
      (pattern.data.take i).isPrefixOf target.data
        && (pattern.data.drop (i + 1)).isSuffixOf target.data
  | none => pattern == target

/-- Embedding of `utils::extract_exports_pattern` (src/utils.rs lines 12-19).
The slice `&target[i .. target.len() - (pattern.len() - i) + 1]` panics when
the subtraction underflows or the range is invalid; `none` models that panic.
With no star the source returns `target` itself. -/
def extract_exports_pattern (pattern target : String) : Option String :=
  match findChar pattern '*' with
  | none => some target
  | some i =>
      if pattern.data.length - i ≤ target.data.length then
        let e := target.data.length - (pattern.data.length - i) + 1
        if i ≤ e then some (String.mk ((target.data.drop i).take (e - i)))
        else none
      else none

/-- Embedding of `utils::pattern_key_compare` (src/utils.rs lines 21-52).
The source encodes "no star" as `usize::MAX`; `Option Nat` plays that role
here, with the same base-length computation. -/
def pattern_key_compare (a b : String) : Int :=
  let aIdx := findChar a '*'
  let bIdx := findChar b '*'
  let baseLenA := match aIdx with
    | none => a.data.length
    | some i => i + 1
  let baseLenB := match bIdx with
    | none => b.data.length
    | some i => i + 1
  if baseLenA > baseLenB then -1
  else if baseLenB > baseLenA then 1
  else if aIdx = none then 1
  else if bIdx = none then -1
  else if a.data.length > b.data.length then -1
  else if b.data.length > a.data.length then 1
  else 0

/-- Embedding of `types::Extensions` (src/types.rs lines 91-104). -/
inductive Extensions
  | mjs | mts | cjs | cts | json | js | jsx | ts | tsx | node | css
deriving DecidableEq, Repr

/-- Embedding of `Extensions::to_str` (src/types.rs lines 124-138). -/
def Extensions.toStr : Extensions → String
  | .mjs => "mjs"
  | .mts => "mts"
  | .cjs => "cjs"
  | .cts => "cts"
  | .json => "json"
  | .js => "js"
  | .jsx => "jsx"
  | .ts => "ts"
  | .tsx => "tsx"
  | .node => "node"
  | .css => "css"

/-- Embedding of `types::MainFields` (src/types.rs lines 7-12). -/
inductive MainFields
  | main | module | reactNative
deriving DecidableEq, Repr

/-- Embedding of `types::TargetEnv` (src/types.rs lines 15-18). -/
inductive TargetEnv
  | node | browser
deriving DecidableEq, Repr

/-- Embedding of `types::EsResolveOptions` (src/types.rs lines 21-42). -/
structure EsResolveOptions where
  mainFields : List MainFields
  conditions : List String
  extensions : List Extensions
deriving DecidableEq, Repr

/-- Modelled from the spec: `data::DEFAULT_EXTENSIONS` lives in the missing
`src/data.rs`; the default order is documented in src/types.rs line 40 and in
spec section 4.2 as `[tsx, ts, jsx, js, css, json]`. -/
def DEFAULT_EXTENSIONS : List Extensions :=
  [.tsx, .ts, .jsx, .js, .css, .json]

/-- Embedding of `EsResolveOptions::default_for` (src/types.rs lines 49-67). -/
def EsResolveOptions.defaultFor : TargetEnv → EsResolveOptions
  | .node =>
      { mainFields := [.main, .module]
        conditions := ["node", "require", "default"]
        extensions := DEFAULT_EXTENSIONS }
  | .browser =>
      { mainFields := [.module, .main]
        conditions := ["browser", "module", "import", "default"]
        extensions := DEFAULT_EXTENSIONS }

/-- Embedding of `types::EsResolverError` (src/types.rs lines 72-87).  The
`std::io::Error` and `serde_json::Error` payloads carry no information the
algorithm inspects and are dropped; diagnostic message strings are kept in
simplified form (the claims never depend on their exact text). -/
inductive EsResolverError
  | ioError (context : String)
  | invalidPackageJSON
  | invalidTSConfig
  | invalidTSConfigExtend (msg : String)
  | invalidExports (msg : String)
  | invalidModuleSpecifier (msg : String)
  | moduleNotFound (msg : String)
deriving DecidableEq, Repr

/-- Embedding of `types::Exports` (src/types.rs lines 165-171).  The
`IndexMap` is an insertion-ordered association list; `get` is `List.lookup`. -/
inductive Exports
  | str (s : String)
  | obj (entries : List (String × Option Exports))
  | arr (items : List Exports)

/-- Embedding of `types::PackageJSON` (src/types.rs lines 141-152). -/
structure PackageJSON where
  main : Option String
  module : Option String
  reactNative : Option String
  exports : Option Exports

/-- Embedding of `PackageJSON::get_main_field` (src/types.rs lines 154-163). -/
def PackageJSON.getMainField (pj : PackageJSON) : MainFields → Option String
  | .main => pj.main
  | .module => pj.module
  | .reactNative => pj.reactNative

/-- Embedding of `types::TSConfigCompilerOptions` (src/types.rs lines
181-186); `paths` is the insertion-ordered `TSConfigPaths` map. -/
structure TSConfigCompilerOptions where
  baseUrl : Option String
  paths : Option (List (String × List String))
deriving DecidableEq, Repr

/-- Embedding of `types::TSConfig` (src/types.rs lines 173-179).  The field
`extends` is a Lean keyword, hence `tsExtends`. -/
structure TSConfig where
  tsExtends : Option String
  compilerOptions : TSConfigCompilerOptions
deriving DecidableEq, Repr

/-- Modelled from the spec: `data::NODE_CORE_MODULES` lives in the missing
`src/data.rs`.  Spec section 3 describes it as a fixed sorted set of Node
core-module names; this is a representative sorted table. -/
def NODE_CORE_MODULES : List String :=
  ["assert", "buffer", "child_process", "cluster", "console", "constants",
   "crypto", "dgram", "dns", "domain", "events", "fs", "http", "http2",
   "https", "module", "net", "os", "path", "perf_hooks", "process",
   "punycode", "querystring", "readline", "repl", "stream", "string_decoder",
   "timers", "tls", "tty", "url", "util", "v8", "vm", "worker_threads",
   "zlib"]

/-- Modelled from the spec: `data::REWRITTEN_EXTENSIONS` lives in the missing
`src/data.rs`.  Spec section 4.2 step 3 gives the table
`.js -> [.ts, .tsx]`, `.jsx -> [.tsx]`, `.cjs -> [.cts]`, `.mjs -> [.mts]`. -/
def REWRITTEN_EXTENSIONS : List (Extensions × List Extensions) :=
  [(.js, [.ts, .tsx]), (.jsx, [.tsx]), (.cjs, [.cts]), (.mjs, [.mts])]

/-- Modelled from the spec: `data::TSCONFIG_NAMES` lives in the missing
`src/data.rs`; spec section 4.7 names `tsconfig.json` then `jsconfig.json`. -/
def TSCONFIG_NAMES : List String :=
  ["tsconfig.json", "jsconfig.json"]

/-- Modelled from the spec: `data::PACKAGE_JSON` (missing `src/data.rs`). -/
def PACKAGE_JSON : String := "package.json"

/-- Modelled from the spec: `data::NODE_MODULES` (missing `src/data.rs`). -/
def NODE_MODULES : String := "node_modules"

/-- Fuelled core of Rust slice `binary_search`: `left`/`right` bracket the
search, the midpoint is probed and the half kept, as in the standard library
loop.  The fuel only bounds the loop (it strictly shrinks `right - left`), so
`arr.length + 1` units always suffice. -/
def bsearchGo (arr : List String) (target : String) : Nat → Nat → Nat → Bool
  | 0, _, _ => false
  | fuel + 1, left, right =>
      if left < right then
        let mid := left + (right - left) / 2
        let v := arr.getD mid ""
        if strLt v target then bsearchGo arr target fuel (mid + 1) right
        else if strLt target v then bsearchGo arr target fuel left mid
        else true
      else false

/-- Rust `NODE_CORE_MODULES.binary_search(&target).is_ok()`. -/
def bsearch (arr : List String) (target : String) : Bool :=
  bsearchGo arr target (arr.length + 1) 0 arr.length

/-- The filesystem and JSON oracles, the external collaborators of the
algorithm (spec sections 1 and 6): `canonicalize`, `is_file`, `exists`,
`read_to_string`, `serde_json::from_str::<PackageJSON>` and the
comment-stripping `serde_json::from_reader::<TSConfig>`.  `none`/`false`
model the failing outcome. -/
structure Env where
  canonicalize : String → Option String
  isFile : String → Bool
  pathExists : String → Bool
  readToString : String → Option String
  parsePackageJSON : String → Option PackageJSON
  parseTSConfig : String → Option TSConfig

/-- Embedding of `EsResolver::ok_with` (src/es_resolver.rs lines 42-44):
clean the path and render it. -/
def ok_with (p : String) : Except EsResolverError String :=
  .ok (cleanPath p)

/-- Embedding of `EsResolver::try_extension` (src/es_resolver.rs lines
639-647): probe `abs_to.with_extension(e)` with `exists`, returning the
cleaned path on a hit. -/
def try_extension (env : Env) (absTo : String) (extension : Extensions) :
    Option String :=
  let withExt := withExtension absTo extension.toStr
  if env.pathExists withExt then some (cleanPath withExt) else none

/-- First loop of `load_as_file` (src/es_resolver.rs lines 172-184): try each
configured extension in order. -/
def firstExtensionHit (env : Env) (absTo : String) :
    List Extensions → Option String
  | [] => none
  | e :: rest =>
      match try_extension env absTo e with
      | some p => some p
      | none => firstExtensionHit env absTo rest

/-- Second loop of `load_as_file` (src/es_resolver.rs lines 186-203): the
rewritten-extensions table, guarded by the component-wise `Path::ends_with`. -/
def rewrittenHit (env : Env) (absTo : String) :
    List (Extensions × List Extensions) → Option String
  | [] => none
  | (rw, tryExts) :: rest =>
      if pathEndsWith absTo rw.toStr then
        match firstExtensionHit env absTo tryExts with
        | some p => some p
        | none => rewrittenHit env absTo rest
      else rewrittenHit env absTo rest

/-- Embedding of `EsResolver::load_as_file` (src/es_resolver.rs lines
166-213). -/
def load_as_file (env : Env) (absTo : String) (extensions : List Extensions) :
    Option String :=
  if env.isFile absTo then some absTo
  else
    match firstExtensionHit env absTo extensions with
    | some p => some p
    | none => rewrittenHit env absTo REWRITTEN_EXTENSIONS

/-- Embedding of `EsResolver::load_package_json` (src/es_resolver.rs lines
267-282). -/
def load_package_json (env : Env) (p : String) :
    Except EsResolverError PackageJSON :=
  match env.readToString p with
  | some c =>
      match env.parsePackageJSON c with
      | some pj => .ok pj
      | none => .error .invalidPackageJSON
  | none => .error (.ioError "Cannot read package.json")

/-- Main-field loop of `load_as_directory` (src/es_resolver.rs lines
240-250). -/
def mainFieldsHit (env : Env) (opts : EsResolveOptions) (absTo : String)
    (pj : PackageJSON) : List MainFields → Option String
  | [] => none
  | f :: rest =>
      match pj.getMainField f with
      | some path =>
          match load_as_file env (joinPath absTo path) opts.extensions with
          | some p => some p
          | none => mainFieldsHit env opts absTo pj rest
      | none => mainFieldsHit env opts absTo pj rest

/-- Embedding of `EsResolver::load_index` (src/es_resolver.rs lines
262-265). -/
def load_index (env : Env) (opts : EsResolveOptions) (absTo : String) :
    Option String :=
  load_as_file env (joinPath absTo "index") opts.extensions

/-- Embedding of `EsResolver::load_as_directory` (src/es_resolver.rs lines
230-254): an invalid `package.json` is silently ignored. -/
def load_as_directory (env : Env) (opts : EsResolveOptions) (absTo : String) :
    Option String :=
  let hit :=
    match load_package_json env (joinPath absTo PACKAGE_JSON) with
    | .ok pj => mainFieldsHit env opts absTo pj opts.mainFields
    | .error _ => none
  match hit with
  | some p => some p
  | none => load_index env opts absTo

/-- Embedding of `EsResolver::load_as_relative` (src/es_resolver.rs lines
139-153).  The outer `Option` is Rust's (a miss, not a panic). -/
def load_as_relative (env : Env) (opts : EsResolveOptions) (absTo : String) :
    Option (Except EsResolverError String) :=
  match load_as_file env absTo opts.extensions with
  | some f => some (ok_with f)
  | none =>
      match load_as_directory env opts absTo with
      | some f => some (ok_with f)
      | none => none

/-- Tail of `parse_package_name` after the separator index is fixed
(src/es_resolver.rs lines 617-636). -/
def parsePackageNameRest (name : String) (sepIndex : Option Nat) :
    Except EsResolverError (String × String) :=
  let packageName :=
    match sepIndex with
    | some i => strTake name i
    | none => name
  if strStartsWith packageName "." then
    .error (.invalidModuleSpecifier
      (name ++ " is not a valid package name, because it starts with a dot."))
  else if strContains packageName '%' || strContains packageName '\\' then
    .error (.invalidModuleSpecifier
      (name ++ " is not a valid package name, because it contains a percent or backslash."))
  else .ok (packageName, strDrop name packageName.data.length)

/-- Embedding of `EsResolver::parse_package_name` (src/es_resolver.rs lines
603-637).  The source reads `name.as_bytes()[0]`, which panics on the empty
string; `none` models that panic. -/
def parse_package_name (name : String) :
    Option (Except EsResolverError (String × String)) :=
  match name.data with
  | [] => none
  | c0 :: _ =>
      let sep0 := findChar name '/'
      if c0 = '@' then
        match sep0 with
        | some i =>
            some (parsePackageNameRest name
              ((findChar (strDrop name (i + 1)) '/').map (fun j => j + i + 1)))
        | none =>
            some (.error (.invalidModuleSpecifier
              (name ++ " is not a valid package name, because it is scoped without a slash.")))
      else some (parsePackageNameRest name sep0)

/-- Embedding of `EsResolver::is_conditional_exports_main_sugar`
(src/es_resolver.rs lines 346-369). -/
def is_conditional_exports_main_sugar (exports : Exports)
    (packageJsonPath : String) : Except EsResolverError Bool :=
  match exports with
  | .str _ => .ok true
  | .arr _ => .ok true
  | .obj map =>
      let isConditionalSugar := map.all (fun kv => !strStartsWith kv.1 ".")
      let anyConditional := map.any (fun kv => !strStartsWith kv.1 ".")
      if isConditionalSugar == anyConditional then .ok isConditionalSugar
      else
        .error (.invalidExports
          ("The pkg.exports at " ++ packageJsonPath
            ++ " here is invalid. Some keys starts with a dot but some does not."))

/-- Embedding of `EsResolver::resolve_package_target_string`
(src/es_resolver.rs lines 574-600): resolve relative to the manifest via
`with_file_name`, substituting the single `*` when `pattern` is set.  No
filesystem check is performed. -/
def resolve_package_target_string (packageJsonPath target subpath : String)
    (packageSubpath : String) (pattern internal isPathmap : Bool) :
    Except EsResolverError (Option String) :=
  let resolved :=
    if !pattern then withFileName packageJsonPath target
    else withFileName packageJsonPath (replacen1 target '*' subpath)
  .ok (some resolved)

/-- Embedding of `EsResolver::resolve_package_target` (src/es_resolver.rs
lines 505-571).  The object loop propagates recursion errors through `?` and
skips null values and non-matching conditions; the array loop swallows every
non-hit; both fall through to `InvalidExports("")`.  The per-variant empty
list is exactly that fall-through. -/
def resolve_package_target (opts : EsResolveOptions) (packageJsonPath : String)
    (subpath packageSubpath : String) (pattern internal isPathmap : Bool) :
    Exports → Except EsResolverError (Option String)
  | .str t =>
      resolve_package_target_string packageJsonPath t subpath packageSubpath
        pattern internal isPathmap
  | .obj [] => .error (.invalidExports "")
  | .obj ((key, maybeTarget) :: rest) =>
      if key == "default" || opts.conditions.contains key then
        match maybeTarget with
        | some t =>
            match resolve_package_target opts packageJsonPath subpath
                packageSubpath pattern internal isPathmap t with
            | .error e => .error e
            | .ok (some r) => .ok (some r)
            | .ok none =>
                resolve_package_target opts packageJsonPath subpath
                  packageSubpath pattern internal isPathmap (.obj rest)
        | none =>
            resolve_package_target opts packageJsonPath subpath packageSubpath
              pattern internal isPathmap (.obj rest)
      else
        resolve_package_target opts packageJsonPath subpath packageSubpath
          pattern internal isPathmap (.obj rest)
  | .arr [] => .error (.invalidExports "")
  | .arr (t :: rest) =>
      match resolve_package_target opts packageJsonPath subpath packageSubpath
          pattern internal isPathmap t with
      | .ok (some r) => .ok (some r)
      | _ =>
          resolve_package_target opts packageJsonPath subpath packageSubpath
            pattern internal isPathmap (.arr rest)

/-- Embedding of `EsResolver::load_package_exports` (src/es_resolver.rs lines
377-502).  The outer `Option` carries panics (from `parse_package_name`,
`extract_exports_pattern` and the final `unwrap`s); the `Except` layer is the
source's `EsResolverResult`; the inner `Option` is the source's
`Option<PathBuf>` miss.  When neither the direct nor the pattern phase fires,
the source reaches `Ok(Some(PathBuf::new()))` — an empty path. -/
def load_package_exports (env : Env) (opts : EsResolveOptions)
    (nodeModulesDir name : String) :
    Option (Except EsResolverError (Option String)) :=
  match parse_package_name name with
  | none => none
  | some (.error e) => some (.error e)
  | some (.ok (packageName, packageSubpathTail)) =>
    let packageSubpath := "." ++ packageSubpathTail
    let packageJsonPath :=
      joinPath (joinPath nodeModulesDir packageName) "package.json"
    match env.readToString packageJsonPath with
    | none =>
        some (.error (.ioError ("Cannot read package.json at " ++ packageJsonPath)))
    | some content =>
      match env.parsePackageJSON content with
      | none => some (.error .invalidPackageJSON)
      | some packageJson =>
        match packageJson.exports with
        | none => some (.ok none)
        | some exports =>
          -- Pattern phase (lines 466-495) followed by the fall-through
          -- `Ok(Some(PathBuf::new()))` (line 501).
          let patternPhase : Option (Except EsResolverError (Option String)) :=
            match exports with
            | .obj o =>
                let bestMatch := o.foldl
                  (fun best kv =>
                    match kv.2 with
                    | some _ =>
                        if match_exports_pattern kv.1 packageSubpath
                            && pattern_key_compare best kv.1 == 1 then kv.1
                        else best
                    | none => best) ""
                match extract_exports_pattern bestMatch packageSubpath with
                | none => none
                | some subpath =>
                    if bestMatch.data.length > 0 then
                      match List.lookup bestMatch o with
                      | some (some t) =>
                          some (resolve_package_target opts packageJsonPath
                            subpath packageSubpath true false false t)
                      | some none => none
                      | none => none
                    else some (.ok (some ""))
            | _ => some (.ok (some ""))
          -- Direct phase (lines 427-464): no star, no trailing slash.
          if !strContains packageSubpath '*' && !strEndsWith packageSubpath "/"
          then
            let maybeTarget : Option Exports :=
              match exports with
              | .str _ => some exports
              | .obj o => (List.lookup packageSubpath o).getD none
              | .arr _ => some exports
            match is_conditional_exports_main_sugar exports packageJsonPath with
            | .error e => some (.error e)
            | .ok isSugar =>
              let maybeTarget :=
                if isSugar && packageSubpath == "." then some exports
                else maybeTarget
              match maybeTarget with
              | some target =>
                  some (resolve_package_target opts packageJsonPath
                    packageSubpath "" false false false target)
              | none => patternPhase
          else patternPhase

/-- The tail of one iteration of the `load_node_modules` loop
(src/es_resolver.rs lines 326-340): probe `DIR/X` as a file, then as a
directory, then move to the parent via `cont`. -/
def nodeModulesProbe (env : Env) (opts : EsResolveOptions) (name : String)
    (cont : String → Option (Except EsResolverError (Option String)))
    (curDir : String) : Option (Except EsResolverError (Option String)) :=
  let moduleBase := joinPath (joinPath curDir NODE_MODULES) name
  match load_as_file env moduleBase opts.extensions with
  | some f => some (.ok (some f))
  | none =>
      match load_as_directory env opts moduleBase with
      | some f => some (.ok (some f))
      | none =>
          match parentPath curDir with
          | some p => cont p
          | none => some (.ok none)

/-- Embedding of the `EsResolver::load_node_modules` walk (src/es_resolver.rs
lines 292-344).  The fuel only bounds the parent-chain loop, which the source
runs until the root is reached; *InvalidModuleSpecifier* and *IOError* from
`load_package_exports` are logged and swallowed, any other error returns
immediately. -/
def load_node_modules (env : Env) (opts : EsResolveOptions) (name : String) :
    Nat → String → Option (Except EsResolverError (Option String))
  | 0, _ => none
  | fuel + 1, curDir =>
      let nodeModulesDir := joinPath curDir NODE_MODULES
      match load_package_exports env opts nodeModulesDir name with
      | none => none
      | some (.ok (some f)) => some (.ok (some f))
      | some (.ok none) =>
          nodeModulesProbe env opts name
            (load_node_modules env opts name fuel) curDir
      | some (.error (.invalidModuleSpecifier _)) =>
          nodeModulesProbe env opts name
            (load_node_modules env opts name fuel) curDir
      | some (.error (.ioError _)) =>
          nodeModulesProbe env opts name
            (load_node_modules env opts name fuel) curDir
      | some (.error e) => some (.error e)

/-- Embedding of `EsResolver::match_tsconfig_paths` (src/es_resolver.rs lines
732-790).  The outer `Option` carries the panic of
`extract_exports_pattern` inside the mapping closure (not reached when the
template list is empty); the inner `Option` is the source's return type,
which in fact is always `Some`. -/
def match_tsconfig_paths (target baseUrl : String)
    (paths : List (String × List String)) : Option (Option (List String)) :=
  match List.lookup target paths with
  | some ps => some (some (ps.map (fun p => joinPath baseUrl p)))
  | none =>
      let bestKey := paths.foldl
        (fun best kv =>
          if match_exports_pattern kv.1 target
              && pattern_key_compare best kv.1 == 1 then kv.1
          else best) ""
      if bestKey.data.length = 0 then
        some (some [joinPath baseUrl target])
      else
        match List.lookup bestKey paths with
        | none => none
        | some bestKeyPaths =>
            match bestKeyPaths with
            | [] => some (some [])
            | _ =>
                match extract_exports_pattern bestKey target with
                | none => none
                | some extracted =>
                    some (some (bestKeyPaths.map
                      (fun p => joinPath baseUrl (replacen1 p '*' extracted))))

/-- The candidate loop of the TSConfig-paths pass (src/es_resolver.rs lines
101-105): try each candidate as a relative load, returning the first
result. -/
def tryPaths (env : Env) (opts : EsResolveOptions) :
    List String → Option (Except EsResolverError String)
  | [] => none
  | p :: rest =>
      match load_as_relative env opts p with
      | some r => some r
      | none => tryPaths env opts rest

/-- Embedding of `EsResolver::resolve_impl` (src/es_resolver.rs lines
58-137), parameterized by the outcome of the TSConfig-paths pass (`tsPass`).
The source threads an `is_tsconfig` flag instead; because everything is pure,
passing the (lazily irrelevant) pass outcome as an argument breaks the mutual
recursion between `resolve_impl` and `parse_tsconfig` without changing any
result.  `tsPass = some none` is a pass that fell through (or was skipped,
the `is_tsconfig` case), `some (some res)` is a pass that returned `res`,
`none` is a panic inside the pass. -/
def resolveImplWith (env : Env) (opts : EsResolveOptions) (tenv : TargetEnv)
    (target fromPath : String) (fuel : Nat)
    (tsPass : Option (Option (Except EsResolverError String))) :
    Option (Except EsResolverError String) :=
  let notFound : Except EsResolverError String :=
    .error (.moduleNotFound
      ("Cannot resolve " ++ target ++ " from " ++ fromPath))
  let core : Option String :=
    match tenv with
    | .node =>
        if strStartsWith target "node:" then some target
        else if bsearch NODE_CORE_MODULES target then some ("node:" ++ target)
        else none
    | .browser => none
  match core with
  | some r => some (.ok r)
  | none =>
    match env.canonicalize fromPath with
    | none =>
        some (.error (.ioError
          ("Cannot resolve from file " ++ fromPath ++ ". Does the file exist?")))
    | some absFrom =>
      if strStartsWith target "." || strStartsWith target "/" then
        let absTo := withFileName absFrom target
        match load_as_relative env opts absTo with
        | some r => some r
        | none => some notFound
      else
        match tsPass with
        | none => none
        | some (some res) => some res
        | some none =>
            match parentPath absFrom with
            | none => some notFound
            | some fromDir =>
                match load_node_modules env opts target fuel fromDir with
                | none => none
                | some (.ok (some f)) => some (ok_with f)
                | some (.ok none) => some notFound
                | some (.error _) => some notFound

/-- Embedding of `EsResolver::parse_tsconfig` (src/es_resolver.rs lines
678-730).  The fuel bounds the `extends` chain, which the source follows
without cycle protection.  Note the source constructs `tsconfig_options`
with `extensions = [json]` (lines 694-695) but then passes `self.options`
to the sub-resolver (line 698); the embedding reproduces that, handing
`opts` unchanged to the sub-resolution.  The sub-resolver runs with
`TargetEnv::Node` and the `is_tsconfig` flag set, i.e. a skipped TSConfig
pass (`some none`). -/
def parse_tsconfig (env : Env) (opts : EsResolveOptions) :
    Nat → String → Option (Except EsResolverError (Option TSConfig))
  | 0, _ => none
  | fuel + 1, path =>
      match env.readToString path with
      | none => some (.ok none)
      | some content =>
        match env.parseTSConfig content with
        | none => some (.error .invalidTSConfig)
        | some tsconfig0 =>
          let tsconfig : TSConfig :=
            { tsconfig0 with
                compilerOptions :=
                  { tsconfig0.compilerOptions with
                      baseUrl := tsconfig0.compilerOptions.baseUrl.map
                        (fun url => withFileName path url) } }
          match tsconfig.tsExtends with
          | none => some (.ok (some tsconfig))
          | some ext =>
            match resolveImplWith env opts .node ext path fuel (some none) with
            | none => none
            | some (.error e) => some (.error e)
            | some (.ok extendedTsconfigPath) =>
              match parse_tsconfig env opts fuel extendedTsconfigPath with
              | none => none
              | some (.error e) => some (.error e)
              | some (.ok (some extended)) =>
                  some (.ok (some
                    { tsconfig with
                        compilerOptions :=
                          { baseUrl := tsconfig.compilerOptions.baseUrl.or
                              extended.compilerOptions.baseUrl
                            paths := tsconfig.compilerOptions.paths.or
                              extended.compilerOptions.paths } }))
              | some (.ok none) =>
                  some (.error (.invalidTSConfigExtend
                    ("The extends of " ++ path
                      ++ " does not resolve to a valid JSON module. Is the specifier correct?")))

/-- Per-directory loop over `TSCONFIG_NAMES` inside `resolve_tsconfig`
(src/es_resolver.rs lines 657-668). -/
def resolveTsconfigNames (env : Env) (opts : EsResolveOptions) (fuel : Nat)
    (curDir : String) :
    List String → Option (Except EsResolverError (Option TSConfig))
  | [] => some (.ok none)
  | n :: rest =>
      match parse_tsconfig env opts fuel (joinPath curDir n) with
      | none => none
      | some (.error e) => some (.error e)
      | some (.ok (some t)) => some (.ok (some t))
      | some (.ok none) => resolveTsconfigNames env opts fuel curDir rest

/-- Embedding of `EsResolver::resolve_tsconfig` (src/es_resolver.rs lines
651-676): walk the parent chain of `from` looking for the first parseable
TSConfig.  The fuel bounds the walk. -/
def resolve_tsconfig (env : Env) (opts : EsResolveOptions) :
    Nat → String → Option (Except EsResolverError (Option TSConfig))
  | 0, _ => none
  | fuel + 1, curDir =>
      match resolveTsconfigNames env opts fuel curDir TSCONFIG_NAMES with
      | none => none
      | some (.error e) => some (.error e)
      | some (.ok (some t)) => some (.ok (some t))
      | some (.ok none) =>
          match parentPath curDir with
          | some p => resolve_tsconfig env opts fuel p
          | none => some (.ok none)

/-- The TSConfig-paths pass of `resolve_impl` (src/es_resolver.rs lines
88-117): locate a TSConfig, and when it declares `paths`, try the candidates
produced by `match_tsconfig_paths`.  Result `some none` means fall through
to the node_modules walk, `some (some res)` means return `res`, `none` is a
panic. -/
def tsconfigPass (env : Env) (opts : EsResolveOptions)
    (target fromPath : String) (fuel : Nat) :
    Option (Option (Except EsResolverError String)) :=
  match resolve_tsconfig env opts fuel fromPath with
  | none => none
  | some (.error e) => some (some (.error e))
  | some (.ok none) => some none
  | some (.ok (some tsconfig)) =>
      match tsconfig.compilerOptions.paths with
      | none => some none
      | some paths =>
          match match_tsconfig_paths target
              (tsconfig.compilerOptions.baseUrl.getD ".") paths with
          | none => none
          | some none => some none
          | some (some candidates) =>
              match tryPaths env opts candidates with
              | some r => some (some r)
              | none => some none

/-- Embedding of `EsResolver::resolve_impl` with its `is_tsconfig` flag
(src/es_resolver.rs lines 58-137): the flag skips the TSConfig-paths pass. -/
def resolve_impl (env : Env) (opts : EsResolveOptions) (tenv : TargetEnv)
    (target fromPath : String) (isTsconfig : Bool) (fuel : Nat) :
    Option (Except EsResolverError String) :=
  resolveImplWith env opts tenv target fromPath fuel
    (if isTsconfig then some none else tsconfigPass env opts target fromPath fuel)

/-- Embedding of `EsResolver::resolve` (src/es_resolver.rs lines 50-52). -/
def resolve (env : Env) (opts : EsResolveOptions) (tenv : TargetEnv)
    (target fromPath : String) (fuel : Nat) :
    Option (Except EsResolverError String) :=
  resolve_impl env opts tenv target fromPath false fuel

/-! Concrete environments used to instantiate the theorems below.  Each is an
explicit filesystem/JSON oracle describing a small disk layout. -/

/-- The default Node options, `EsResolveOptions::default_for(TargetEnv::Node)`. -/
def optsNode : EsResolveOptions := EsResolveOptions.defaultFor .node

/-- An empty filesystem: nothing exists, nothing reads, nothing parses. -/
def envEmpty : Env :=
  { canonicalize := fun _ => none
    isFile := fun _ => false
    pathExists := fun _ => false
    readToString := fun _ => none
    parsePackageJSON := fun _ => none
    parseTSConfig := fun _ => none }

/-- A disk holding exactly one entry, `/a/jquery.tsx` (and no regular file at
`/a/jquery.min` or `/a/jquery.min.tsx`). -/
def envC1 : Env :=
  { envEmpty with pathExists := fun p => p == "/a/jquery.tsx" }

/-- A disk on which only `/app/index.js` canonicalizes. -/
def envC10 : Env :=
  { envEmpty with
      canonicalize := fun p =>
        if p == "/app/index.js" then some "/app/index.js" else none }

/-- A package manifest whose `exports` is the conditional-sugar object
`{"import": "./m.mjs"}` — it has no subpath keys at all. -/
def pkgC4 : PackageJSON :=
  { main := none, module := none, reactNative := none
    exports := some (.obj [("import", some (.str "./m.mjs"))]) }

/-- A disk with `/app/index.js` and a package `pkg` whose `package.json`
parses to `pkgC4`; no TSConfig anywhere. -/
def envC4 : Env :=
  { envC10 with
      readToString := fun p =>
        if p == "/app/node_modules/pkg/package.json" then some "pkgjson"
        else none
      parsePackageJSON := fun s => if s == "pkgjson" then some pkgC4 else none }

/-- A disk where `/a/node_modules/pkg/package.json` reads but does not parse
as JSON. -/
def envBadJson : Env :=
  { envEmpty with
      readToString := fun p =>
        if p == "/a/node_modules/pkg/package.json" then some "bad" else none }

/-- The root TSConfig of the `extends` scenario: `{"extends": "./base"}`. -/
def tsRoot : TSConfig :=
  { tsExtends := some "./base"
    compilerOptions := { baseUrl := none, paths := none } }

/-- The extended TSConfig: no `extends`, only `paths`. -/
def tsExt : TSConfig :=
  { tsExtends := none
    compilerOptions := { baseUrl := none, paths := some [("@x/*", ["src/*"])] } }

/-- The merge of `tsRoot` over `tsExt` (the child keeps its fields, missing
ones inherit). -/
def tsMerged : TSConfig :=
  { tsExtends := some "./base"
    compilerOptions := { baseUrl := none, paths := some [("@x/*", ["src/*"])] } }

/-- A disk with `/p/tsconfig.json` parsing to `tsRoot`, and a TypeScript file
`/p/base.tsx` (probed as `/p/./base.tsx` before cleaning) parsing to `tsExt`.
There is no `/p/base.json`. -/
def envC2 : Env :=
  { envEmpty with
      canonicalize := fun p =>
        if p == "/p/tsconfig.json" then some "/p/tsconfig.json" else none
      pathExists := fun p => p == "/p/./base.tsx"
      readToString := fun p =>
        if p == "/p/tsconfig.json" then some "root"
        else if p == "/p/base.tsx" then some "ext" else none
      parseTSConfig := fun s =>
        if s == "root" then some tsRoot
        else if s == "ext" then some tsExt else none }

/-- An exports object whose first matching condition (`node`) recursively
fails (its object contains no matching condition) while the later `default`
condition would succeed. -/
def c5obj : Exports :=
  .obj [("node", some (.obj [("zzz", some (.str "./a"))])),
        ("default", some (.str "./b"))]

/-! Theorems. -/

/-- C3 (counterexample): for `a = "./ab"` (no star, base length 4) and
`b = "./a*"` (one star, base length 3+1 = 4), the claim predicts
`pattern_key_compare a b = -1` (the non-pattern key beats the pattern key),
but the source returns `1`: on equal base lengths the branch
`a_pattern_index == usize::MAX` yields `1`, handing the win to the pattern
key. -/
theorem c3_counterexample :
    pattern_key_compare "./ab" "./a*" = 1
      ∧ pattern_key_compare "./ab" "./a*" ≠ -1 := by
  refine ⟨rfl, ?_⟩
  decide

/-- C3 (amended): whenever `a` has no `*`, `b` has its (single) `*` at index
`i`, and the base lengths are equal (`a.length = i + 1`),
`pattern_key_compare a b = 1`, i.e. the *pattern* key beats the non-pattern
key on this tie — the opposite of the claimed `-1`. -/
theorem c3_amended (a b : String) (i : Nat)
    (ha : findChar a '*' = none) (hb : findChar b '*' = some i)
    (hlen : a.data.length = i + 1) :
    pattern_key_compare a b = 1 := by
  unfold pattern_key_compare
  rw [ha, hb, hlen]
  simp

/-- C3 witness: `c3_amended` applied at `a = "./abc"`, `b = "./ab*"`. -/
theorem c3_amended_witness : pattern_key_compare "./abc" "./ab*" = 1 :=
  c3_amended "./abc" "./ab*" 4 rfl rfl rfl

/-- C7 (counterexample): with no star in the pattern the source returns the
whole `target`, not the empty string (`extract_exports_pattern "p" "p" =
some "p" ≠ some ""`); and for `pattern = "a*a"`, `target = "a"` the match
holds yet the slice `&target[1..0]` panics (modelled by `none`). -/
theorem c7_counterexample :
    match_exports_pattern "p" "p" = true
      ∧ extract_exports_pattern "p" "p" = some "p"
      ∧ (some "p" : Option String) ≠ some ""
      ∧ match_exports_pattern "a*a" "a" = true
      ∧ extract_exports_pattern "a*a" "a" = none := by
  refine ⟨rfl, rfl, ?_, rfl, rfl⟩
  decide

/-- C1 (counterexample): with only `/a/jquery.tsx` on disk and extension list
`[tsx]`, `load_as_file` on the base `/a/jquery.min` (not an existing regular
file) returns `/a/jquery.tsx`: the probe is `Path::with_extension`, which
*replaces* the `.min` suffix.  Under the claim the only probe would be
`/a/jquery.min.tsx`, which does not exist, so the claim predicts a miss. -/
theorem c1_counterexample :
    load_as_file envC1 "/a/jquery.min" [Extensions.tsx] = some "/a/jquery.tsx"
      ∧ envC1.pathExists "/a/jquery.min.tsx" = false
      ∧ envC1.isFile "/a/jquery.min" = false :=
  ⟨rfl, rfl, rfl⟩

/-- C2 (code evaluation at the failing input): `/p/tsconfig.json` declares
`extends = "./base"`, and only `/p/base.tsx` exists (no `/p/base.json`).
The source resolves the `extends` target through the *unrestricted* default
extension list — the `[json]`-restricted `tsconfig_options` it constructs is
never passed — so `parse_tsconfig` succeeds via the `.tsx` file; under the
claimed `[json]` restriction the very same sub-resolution (the
`is_tsconfig` sub-resolver with `extensions = [json]`) fails with
*ModuleNotFound*. -/
theorem c2_code_evaluation :
    parse_tsconfig envC2 optsNode 9 "/p/tsconfig.json" = some (.ok (some tsMerged))
      ∧ resolveImplWith envC2 { optsNode with extensions := [Extensions.json] }
          .node "./base" "/p/tsconfig.json" 9 (some none)
        = some (.error (.moduleNotFound "Cannot resolve ./base from /p/tsconfig.json")) :=
  ⟨rfl, rfl⟩

/-- C4 (code evaluation at the failing input): resolving `pkg/sub` where
`pkg`'s manifest has the conditional-sugar exports `{"import": "./m.mjs"}`
reaches the `Ok(Some(PathBuf::new()))` fall-through of
`load_package_exports`, and `resolve` succeeds with `"."` (the clean of the
empty path) — not an absolute filesystem path. -/
theorem c4_code_evaluation :
    resolve envC4 optsNode .node "pkg/sub" "/app/index.js" 99 = some (.ok ".")
      ∧ isAbsolutePath "." = false :=
  ⟨rfl, rfl⟩

/-- C10 (code evaluation at the failing input): `parse_package_name` indexes
`name.as_bytes()[0]`, so the empty specifier panics (`none`), and `resolve`
with the empty bare specifier from an existing file propagates that panic
instead of returning an `InvalidModuleSpecifier` error. -/
theorem c10_code_evaluation :
    parse_package_name "" = none
      ∧ resolve envC10 optsNode .node "" "/app/index.js" 99 = none :=
  ⟨rfl, rfl⟩

/-- C8: under `TargetEnv::Node`, a target literally beginning with `node:` is
returned unchanged, and otherwise a target found by binary search in the
core-module table is returned as `node:` + target; both results hold for
*every* filesystem oracle and every fuel (in particular a `from` that does
not canonicalize), so resolution is pure and precedes any filesystem
operation. -/
theorem c8_core_modules :
    (∀ (env : Env) (opts : EsResolveOptions) (fromPath : String) (isTs : Bool)
        (fuel : Nat) (target : String),
        strStartsWith target "node:" = true →
        resolve_impl env opts .node target fromPath isTs fuel = some (.ok target))
  ∧ (∀ (env : Env) (opts : EsResolveOptions) (fromPath : String) (isTs : Bool)
        (fuel : Nat) (target : String),
        strStartsWith target "node:" = false →
        bsearch NODE_CORE_MODULES target = true →
        resolve_impl env opts .node target fromPath isTs fuel
          = some (.ok ("node:" ++ target))) := by
  constructor
  · intro env opts fromPath isTs fuel target h
    simp [resolve_impl, resolveImplWith, h]
  · intro env opts fromPath isTs fuel target h1 h2
    simp [resolve_impl, resolveImplWith, h1, h2]

/-- C8 witness: `c8_core_modules` applied on the empty filesystem (where
`/nowhere` does not canonicalize) with fuel `0`, for `node:x` and `fs`. -/
theorem c8_core_modules_witness :
    resolve_impl envEmpty optsNode .node "node:x" "/nowhere" false 0
        = some (.ok "node:x")
      ∧ resolve_impl envEmpty optsNode .node "fs" "/nowhere" false 0
        = some (.ok "node:fs")
      ∧ envEmpty.canonicalize "/nowhere" = none :=
  ⟨c8_core_modules.1 envEmpty optsNode "/nowhere" false 0 "node:x" rfl,
   c8_core_modules.2 envEmpty optsNode "/nowhere" false 0 "fs" rfl rfl,
   rfl⟩

/-- If `List.lookup k l` misses, no key of `l` equals `k`. -/
theorem lookup_none_keys {α : Type} (l : List (String × α)) (k : String) :
    List.lookup k l = none → ∀ kv ∈ l, kv.1 ≠ k := by
  induction l with
  | nil => intro _ kv hkv; cases hkv
  | cons a t ih =>
      intro h kv hkv
      rw [List.lookup_cons] at h
      by_cases hk : k == a.1
      · simp [hk] at h
      · simp only [hk, Bool.false_eq_true] at h
        rcases List.mem_cons.mp hkv with hkv1 | hkv1
        · subst hkv1
          intro he
          exact hk (by simp [he])
        · exact ih h kv hkv1

/-- The best-key fold of `match_tsconfig_paths` never moves off `best` when
no key matches. -/
theorem foldl_best_key_const (target : String) :
    ∀ (l : List (String × List String)) (best : String),
      (∀ kv ∈ l, match_exports_pattern kv.1 target = false) →
      l.foldl (fun best kv =>
        if match_exports_pattern kv.1 target
            && pattern_key_compare best kv.1 == 1 then kv.1 else best) best
        = best := by
  intro l
  induction l with
  | nil => intro best _; rfl
  | cons kv rest ih =>
      intro best h
      have hkv := h kv (List.mem_cons_self kv rest)
      simp only [List.foldl_cons, hkv, Bool.false_and, Bool.false_eq_true,
        if_false, if_neg]
      exact ih best (fun x hx => h x (List.mem_cons_of_mem kv hx))

/-- C9: when `paths` has no verbatim entry equal to `target` and no pattern
key (a key containing `*`) matches `target`, `match_tsconfig_paths` still
returns the single candidate `base_url joined-with target` — TypeScript's
implicit `"*": ["*"]` rule — and in particular never an empty candidate
set. -/
theorem c9_implicit_star (target baseUrl : String)
    (paths : List (String × List String))
    (hverbatim : List.lookup target paths = none)
    (hstar : ∀ kv ∈ paths, findChar kv.1 '*' ≠ none →
        match_exports_pattern kv.1 target = false) :
    match_tsconfig_paths target baseUrl paths
      = some (some [joinPath baseUrl target]) := by
  have hall : ∀ kv ∈ paths, match_exports_pattern kv.1 target = false := by
    intro kv hkv
    rcases hs : findChar kv.1 '*' with _ | i
    · unfold match_exports_pattern
      rw [hs]
      have hne := lookup_none_keys paths target hverbatim kv hkv
      simp [hne]
    · exact hstar kv hkv (by simp [hs])
  unfold match_tsconfig_paths
  rw [hverbatim]
  simp only
  rw [foldl_best_key_const target paths "" hall]
  rfl

/-- C9 witness: `c9_implicit_star` applied to
`paths = [("@c/*", ["components/*"])]` and the non-matching target
`lib/x`. -/
theorem c9_implicit_star_witness :
    match_tsconfig_paths "lib/x" "/root/src" [("@c/*", ["components/*"])]
      = some (some ["/root/src/lib/x"]) := by
  have h := c9_implicit_star "lib/x" "/root/src" [("@c/*", ["components/*"])]
    rfl (by decide)
  exact h.trans rfl

/-- The extension loop hits the first extension whose
`with_extension` probe exists, in list order. -/
theorem firstExtensionHit_append (env : Env) (absTo : String)
    (pre post : List Extensions) (e : Extensions)
    (hpre : ∀ x ∈ pre, env.pathExists (withExtension absTo x.toStr) = false)
    (hhit : env.pathExists (withExtension absTo e.toStr) = true) :
    firstExtensionHit env absTo (pre ++ e :: post)
      = some (cleanPath (withExtension absTo e.toStr)) := by
  induction pre with
  | nil => simp [firstExtensionHit, try_extension, hhit]
  | cons x rest ih =>
      have hx := hpre x (List.mem_cons_self x rest)
      simp only [List.cons_append, firstExtensionHit, try_extension, hx,
        Bool.false_eq_true, if_false, if_neg]
      exact ih (fun y hy => hpre y (List.mem_cons_of_mem x hy))

/-- C1 (amended): when the base `abs` is not an existing regular file, each
extension `e` of the list is probed in order as `abs.with_extension(e)` —
which *replaces* an existing extension of the final component rather than
appending — and the first probe that exists (per `fs::exists`) is returned
in cleaned form. -/
theorem c1_amended (env : Env) (absTo : String) (pre post : List Extensions)
    (e : Extensions)
    (hbase : env.isFile absTo = false)
    (hpre : ∀ x ∈ pre, env.pathExists (withExtension absTo x.toStr) = false)
    (hhit : env.pathExists (withExtension absTo e.toStr) = true) :
    load_as_file env absTo (pre ++ e :: post)
      = some (cleanPath (withExtension absTo e.toStr)) := by
  unfold load_as_file
  rw [hbase, firstExtensionHit_append env absTo pre post e hpre hhit]
  simp

/-- C1 witness: `c1_amended` applied on `envC1` with the extension list
`[ts, tsx]`: the `ts` probe misses, the `tsx` probe replaces `.min` and
hits `/a/jquery.tsx`. -/
theorem c1_amended_witness :
    load_as_file envC1 "/a/jquery.min" [Extensions.ts, Extensions.tsx]
      = some "/a/jquery.tsx" := by
  have h := c1_amended envC1 "/a/jquery.min" [Extensions.ts] [] Extensions.tsx
    rfl (by decide) rfl
  exact h.trans rfl

/-- C6: at each ancestor directory of the node_modules walk, a
`load_package_exports` outcome of *InvalidModuleSpecifier* or *IOError* is
swallowed — the iteration continues with the file probe, the directory probe
and then the parent directory — whereas every other error outcome is returned
immediately as the result of the walk. -/
theorem c6_walker :
    (∀ (env : Env) (opts : EsResolveOptions) (name curDir : String) (fuel : Nat),
        ((∃ m, load_package_exports env opts (joinPath curDir NODE_MODULES) name
            = some (.error (.invalidModuleSpecifier m)))
          ∨ (∃ m, load_package_exports env opts (joinPath curDir NODE_MODULES) name
            = some (.error (.ioError m)))) →
        load_node_modules env opts name (fuel + 1) curDir
          = nodeModulesProbe env opts name (load_node_modules env opts name fuel) curDir)
  ∧ (∀ (env : Env) (opts : EsResolveOptions) (name curDir : String) (fuel : Nat)
        (e : EsResolverError),
        load_package_exports env opts (joinPath curDir NODE_MODULES) name
          = some (.error e) →
        (∀ m, e ≠ .invalidModuleSpecifier m) → (∀ m, e ≠ .ioError m) →
        load_node_modules env opts name (fuel + 1) curDir = some (.error e)) := by
  constructor
  · intro env opts name curDir fuel h
    rcases h with ⟨m, h⟩ | ⟨m, h⟩ <;> simp [load_node_modules, h]
  · intro env opts name curDir fuel e h h1 h2
    cases e <;> first
      | exact absurd rfl (h1 _)
      | exact absurd rfl (h2 _)
      | simp [load_node_modules, h]

/-- C6 witness: `c6_walker` applied concretely.  On the empty disk the name
`.bad` produces *InvalidModuleSpecifier* and the walk continues with the
probe/parent step; on `envBadJson` the unparseable `package.json` of `pkg`
produces *InvalidPackageJSON*, which stops the walk immediately. -/
theorem c6_walker_witness :
    load_node_modules envEmpty optsNode ".bad" 5 "/a"
        = nodeModulesProbe envEmpty optsNode ".bad"
            (load_node_modules envEmpty optsNode ".bad" 4) "/a"
      ∧ load_node_modules envBadJson optsNode "pkg" 5 "/a"
        = some (.error .invalidPackageJSON) :=
  ⟨c6_walker.1 envEmpty optsNode ".bad" "/a" 4
      (Or.inl ⟨".bad is not a valid package name, because it starts with a dot.", rfl⟩),
   c6_walker.2 envBadJson optsNode "pkg" "/a" 4 .invalidPackageJSON rfl
      (fun _ h => nomatch h) (fun _ h => nomatch h)⟩

/-- The `resolve_package_target` walker never returns an empty success: every
outcome is either a resolved path or an error. -/
theorem rpt_ne_ok_none (opts : EsResolveOptions) (pjp sub psub : String)
    (pat intl ipm : Bool) :
    ∀ t : Exports, resolve_package_target opts pjp sub psub pat intl ipm t ≠ .ok none := by
  intro t
  induction t using resolve_package_target.induct opts pjp sub psub pat intl ipm with
  | case1 s => simp [resolve_package_target, resolve_package_target_string]
  | case2 => simp [resolve_package_target]
  | case3 key rest hk t2 e he iht =>
      simp only [resolve_package_target]
      rw [if_pos hk, he]
      simp
  | case4 key rest hk t2 r hr iht =>
      simp only [resolve_package_target]
      rw [if_pos hk, hr]
      simp
  | case5 key rest hk t2 h0 iht ihrest =>
      simp only [resolve_package_target]
      rw [if_pos hk, h0]
      exact ihrest
  | case6 key rest hk ihrest =>
      simp only [resolve_package_target]
      rw [ite_self]
      exact ihrest
  | case7 key mt rest hk ihrest =>
      cases mt with
      | none =>
          simp only [resolve_package_target]
          rw [ite_self]
          exact ihrest
      | some t2 =>
          simp only [resolve_package_target]
          rw [if_neg hk]
          exact ihrest
  | case8 => simp [resolve_package_target]
  | case9 t2 rest r hr iht => simp [resolve_package_target, hr]
  | case10 t2 rest hnr iht ihrest =>
      simp only [resolve_package_target]
      exact ihrest

/-- C5 (counterexample): with Node conditions `[node, require, default]` and
the object `c5obj = {"node": {"zzz": "./a"}, "default": "./b"}`, the first
considered key whose non-null value recursively yields a result is
`default` (second conjunct), so the claim predicts `./b`; but the source
propagates the recursion *error* of the earlier matching key `node` through
`?` and fails with `InvalidExports` instead of trying `default`. -/
theorem c5_counterexample :
    resolve_package_target optsNode "/n/p/package.json" "" "." false false false c5obj
        = .error (.invalidExports "")
      ∧ resolve_package_target optsNode "/n/p/package.json" "" "." false false false
          (.str "./b") = .ok (some "/n/p/./b")
      ∧ (Except.error (.invalidExports "")
          : Except EsResolverError (Option String)) ≠ .ok (some "/n/p/./b") := by
  refine ⟨?_, ?_, fun h => nomatch h⟩
  · simp [c5obj, resolve_package_target, optsNode, EsResolveOptions.defaultFor]
  · simp only [resolve_package_target, resolve_package_target_string]
    rfl

/-- C5 (amended): in `resolve_package_target` on a condition object, entries
are iterated in insertion order and a key is considered only if it equals
`default` or is in `options.conditions`; the *first considered key with a
non-null value* decides the whole outcome — its recursive resolution is
returned verbatim, a success as well as an error (errors propagate
immediately; recursion never yields an empty success, by
`rpt_ne_ok_none`) — and if the iteration exhausts with every considered key
null (or no key considered), the call fails with `InvalidExports`. -/
theorem c5_amended :
    (∀ (opts : EsResolveOptions) (pjp sub psub : String) (pat intl ipm : Bool)
        (pre : List (String × Option Exports)) (k : String) (t : Exports)
        (rest : List (String × Option Exports)),
        (∀ kv ∈ pre,
          (kv.1 == "default" || opts.conditions.contains kv.1) = true → kv.2 = none) →
        (k == "default" || opts.conditions.contains k) = true →
        resolve_package_target opts pjp sub psub pat intl ipm
            (.obj (pre ++ (k, some t) :: rest))
          = resolve_package_target opts pjp sub psub pat intl ipm t)
  ∧ (∀ (opts : EsResolveOptions) (pjp sub psub : String) (pat intl ipm : Bool)
        (entries : List (String × Option Exports)),
        (∀ kv ∈ entries,
          (kv.1 == "default" || opts.conditions.contains kv.1) = true → kv.2 = none) →
        resolve_package_target opts pjp sub psub pat intl ipm (.obj entries)
          = .error (.invalidExports "")) := by
  constructor
  · intro opts pjp sub psub pat intl ipm pre k t rest hpre hk
    induction pre with
    | nil =>
        simp only [List.nil_append, resolve_package_target]
        rw [if_pos hk]
        rcases hr : resolve_package_target opts pjp sub psub pat intl ipm t with e | o
        · rfl
        · rcases o with _ | r
          · exact absurd hr (rpt_ne_ok_none opts pjp sub psub pat intl ipm t)
          · rfl
    | cons kv prest ih =>
        obtain ⟨k1, v1⟩ := kv
        have hpre2 : ∀ kv ∈ prest,
            (kv.1 == "default" || opts.conditions.contains kv.1) = true → kv.2 = none :=
          fun kv hkv => hpre kv (List.mem_cons_of_mem _ hkv)
        by_cases hc : (k1 == "default" || opts.conditions.contains k1) = true
        · have hv : v1 = none := hpre (k1, v1) (List.mem_cons_self _ _) hc
          subst hv
          simp only [List.cons_append, resolve_package_target]
          rw [ite_self]
          exact ih hpre2
        · cases v1 with
          | none =>
              simp only [List.cons_append, resolve_package_target]
              rw [ite_self]
              exact ih hpre2
          | some tv =>
              simp only [List.cons_append, resolve_package_target]
              rw [if_neg hc]
              exact ih hpre2
  · intro opts pjp sub psub pat intl ipm entries hall
    induction entries with
    | nil => simp [resolve_package_target]
    | cons kv prest ih =>
        obtain ⟨k1, v1⟩ := kv
        have hall2 : ∀ kv ∈ prest,
            (kv.1 == "default" || opts.conditions.contains kv.1) = true → kv.2 = none :=
          fun kv hkv => hall kv (List.mem_cons_of_mem _ hkv)
        by_cases hc : (k1 == "default" || opts.conditions.contains k1) = true
        · have hv : v1 = none := hall (k1, v1) (List.mem_cons_self _ _) hc
          subst hv
          simp only [resolve_package_target]
          rw [ite_self]
          exact ih hall2
        · cases v1 with
          | none =>
              simp only [resolve_package_target]
              rw [ite_self]
              exact ih hall2
          | some tv =>
              simp only [resolve_package_target]
              rw [if_neg hc]
              exact ih hall2

/-- C5 witness: `c5_amended` applied to the object
`{"node": null, "default": "./b"}` under Node conditions — the considered
but null `node` entry is skipped and the outcome is exactly the recursion on
`"./b"`. -/
theorem c5_amended_witness :
    resolve_package_target optsNode "/n/p/package.json" "" "." false false false
        (.obj [("node", none), ("default", some (.str "./b"))])
      = resolve_package_target optsNode "/n/p/package.json" "" "." false false false
          (.str "./b") :=
  c5_amended.1 optsNode "/n/p/package.json" "" "." false false false
    [("node", none)] "default" (.str "./b") []
    (fun kv hkv _ => by rcases List.mem_singleton.mp hkv with rfl; rfl)
    rfl

/-- A hit of `findCharAux` lies within the scanned range. -/
theorem findCharAux_bounds (c : Char) :
    ∀ (l : List Char) (k i : Nat), findCharAux c l k = some i → k ≤ i ∧ i < k + l.length := by
  intro l
  induction l with
  | nil => intro k i h; cases h
  | cons x xs ih =>
      intro k i h
      rw [findCharAux] at h
      by_cases hx : x = c
      · rw [if_pos hx] at h
        cases h
        simp
      · rw [if_neg hx] at h
        obtain ⟨h1, h2⟩ := ih (k + 1) i h
        refine ⟨by omega, ?_⟩
        simp only [List.length_cons]
        omega

/-- A found character index is inside the string. -/
theorem findChar_lt (s : String) (c : Char) (i : Nat)
    (h : findChar s c = some i) : i < s.data.length := by
  have := findCharAux_bounds c s.data 0 i h
  omega

/-- C7 (amended): when the pattern has its `*` at index `i`, the match holds,
and the target is long enough for both the subtraction
(`pattern.len - i ≤ target.len`, otherwise the slice arithmetic underflows
and panics) and for disjoint prefix/suffix
(`pattern.len - 1 ≤ target.len`, otherwise the slice range is reversed and
panics), `extract_exports_pattern` returns exactly the substring captured by
the `*`: the target decomposes as prefix ++ captured ++ suffix.  With no
star the source returns the whole `target`, not the empty string (see the
counterexample). -/
theorem c7_amended (pattern target : String) (i : Nat)
    (hstar : findChar pattern '*' = some i)
    (hmatch : match_exports_pattern pattern target = true)
    (hunder : pattern.data.length - i ≤ target.data.length)
    (hsum : pattern.data.length - 1 ≤ target.data.length) :
    extract_exports_pattern pattern target
        = some (String.mk ((target.data.drop i).take
            (target.data.length - (pattern.data.length - i) + 1 - i)))
      ∧ pattern.data.take i
          ++ (target.data.drop i).take
              (target.data.length - (pattern.data.length - i) + 1 - i)
          ++ pattern.data.drop (i + 1)
        = target.data := by
  have hi : i < pattern.data.length := findChar_lt pattern '*' i hstar
  have hie : i ≤ target.data.length - (pattern.data.length - i) + 1 := by omega
  constructor
  · simp only [extract_exports_pattern, hstar]
    rw [if_pos hunder, if_pos hie]
  · have hm : (pattern.data.take i) <+: target.data
        ∧ (pattern.data.drop (i + 1)) <:+ target.data := by
      have hmm := hmatch
      unfold match_exports_pattern at hmm
      rw [hstar] at hmm
      simpa using hmm
    have hpre : pattern.data.take i = target.data.take i := by
      have h2 := List.prefix_iff_eq_take.mp hm.1
      rw [h2]
      congr 1
      rw [List.length_take]
      omega
    have hsuf : pattern.data.drop (i + 1)
        = target.data.drop (target.data.length - (pattern.data.length - (i + 1))) := by
      have h2 := List.suffix_iff_eq_drop.mp hm.2
      rw [h2]
      congr 1
      rw [List.length_drop]
    have hdd : (target.data.drop i).drop
          (target.data.length - (pattern.data.length - i) + 1 - i)
        = target.data.drop (target.data.length - (pattern.data.length - (i + 1))) := by
      rw [List.drop_drop]
      congr 1
      omega
    calc pattern.data.take i
          ++ (target.data.drop i).take
              (target.data.length - (pattern.data.length - i) + 1 - i)
          ++ pattern.data.drop (i + 1)
        = target.data.take i
            ++ ((target.data.drop i).take
                  (target.data.length - (pattern.data.length - i) + 1 - i)
              ++ (target.data.drop i).drop
                  (target.data.length - (pattern.data.length - i) + 1 - i)) := by
          rw [hpre, hsuf, ← hdd, List.append_assoc]
      _ = target.data.take i ++ target.data.drop i := by rw [List.take_append_drop]
      _ = target.data := List.take_append_drop i target.data

/-- C7 witness: `c7_amended` applied to the exports pattern `./star/*` and
target `./star/index`, capturing `index`. -/
theorem c7_amended_witness :
    extract_exports_pattern "./star/*" "./star/index" = some "index"
      ∧ "./star/*".data.take 7 ++ ("./star/index".data.drop 7).take 5
          ++ "./star/*".data.drop 8 = "./star/index".data := by
  have h := c7_amended "./star/*" "./star/index" 7 rfl rfl (by decide) (by decide)
  exact ⟨h.1.trans rfl, h.2⟩

end EsResolve
